import Mathlib

/-!
Shallow embedding of the video-acquisition and transcript-resolution pipeline
of `youtube_monitor.py` (class `YouTubeMonitor`), together with the parts of
`db_manager.py` that shape the Store records.

External collaborators (YouTube data API, caption API, yt-dlp, Gemini, SQLite)
are modelled as a deterministic oracle `World`: each external call site reads
the oracle at the same arguments the Python code passes, so a fixed `World`
corresponds to one unchanged external environment across runs.  Mutable object
and filesystem state threaded through a run (`self.processed_videos`,
`self._last_transcript_method`, the scratch audio files, the database rows
inserted, the accumulated summary list, and logs of which external calls were
made) is carried explicitly in a `RunState` record.
-/

namespace YTMonitor

/-! ### String helpers

Python's `in` on strings (substring test) and `str.lower`, used by the
restricted-content marker checks. -/

/-- `listHasPre n h`: the char list `n` is an initial segment of `h`. -/
def listHasPre : List Char → List Char → Bool
  | [], _ => true
  | _ :: _, [] => false
  | a :: n, b :: h => a == b && listHasPre n h

/-- `listHasSub n h`: the char list `n` occurs contiguously inside `h`. -/
def listHasSub (n : List Char) : List Char → Bool
  | [] => listHasPre n []
  | b :: h => listHasPre n (b :: h) || listHasSub n h

/-- Python `needle in hay` for strings. -/
def containsSub (hay needle : String) : Bool :=
  listHasSub needle.toList hay.toList

/-- Python `s.lower()` (ASCII case, which is all the markers use). -/
def lowerStr (s : String) : String :=
  String.mk (s.toList.map Char.toLower)

/-- `get_transcript` lines 374-376: `'members only' in error_msg or
'join this channel' in error_msg or 'premium' in error_msg`, where
`error_msg = str(e).lower()`. -/
def hasRestrictedMarker (msg : String) : Bool :=
  let m := lowerStr msg
  containsSub m "members only" || containsSub m "join this channel" ||
    containsSub m "premium"

/-- `download_audio` line 306: `'members only' in error_msg or 'private' in
error_msg or 'unavailable' in error_msg`. -/
def hasDownloadRestrictedMarker (msg : String) : Bool :=
  let m := lowerStr msg
  containsSub m "members only" || containsSub m "private" ||
    containsSub m "unavailable"

/-! ### DurationParser (`_parse_duration`, lines 252-267)

The Python uses `re.match(r'PT(?:(\d+)H)?(?:(\d+)M)?(?:(\d+)S)?', s)`.
`re.match` anchors at the start only; every group is optional, so the match
fails exactly when the string does not start with `PT`.  Each optional group
`(?:(\d+)L)?` matches a maximal digit run if and only if the character
immediately after that run is the letter `L` (a shorter run cannot succeed,
since the following character of a proper sub-run is a digit, not `L`);
otherwise the group is absent and consumes nothing. -/

/-- Numeric value of a decimal digit run (what `int(match.group(i))` yields). -/
def digitsVal (cs : List Char) : Nat :=
  cs.foldl (fun a c => a * 10 + (c.toNat - '0'.toNat)) 0

/-- Split a char list into its maximal leading digit run and the rest. -/
def splitDigits : List Char → List Char × List Char
  | [] => ([], [])
  | c :: cs =>
    if c.isDigit then
      let p := splitDigits cs
      (c :: p.1, p.2)
    else ([], c :: cs)

/-- One optional regex group `(?:(\d+)L)?`: value of the group (0 when absent,
as the Python's `int(...) if ... else 0`) and the remaining input. -/
def tryField (letter : Char) (cs : List Char) : Nat × List Char :=
  match splitDigits cs with
  | (ds, c :: rest) =>
    if !ds.isEmpty && c == letter then (digitsVal ds, rest) else (0, cs)
  | (_, []) => (0, cs)

/-- `_parse_duration` on the character sequence: the literal `PT` must match
at the start, then the three optional groups run left to right on the
remaining input (trailing unmatched input is ignored, as `re.match` only
anchors the start). -/
def parseDurationChars (l : List Char) : Nat :=
  match l with
  | 'P' :: 'T' :: rest =>
    (tryField 'H' rest).1 * 3600 +
      (tryField 'M' (tryField 'H' rest).2).1 * 60 +
      (tryField 'S' (tryField 'M' (tryField 'H' rest).2).2).1
  | _ => 0

/-- `YouTubeMonitor._parse_duration`: parse `PT(nH)?(nM)?(nS)?` to seconds;
any string not starting with `PT` has no match and yields 0. -/
def parse_duration (s : String) : Nat :=
  parseDurationChars s.toList

example : parse_duration "PT1H2M3S" = 3723 := by decide
example : parse_duration "PT45S" = 45 := by decide
example : parse_duration "PT" = 0 := by decide
example : parse_duration "PT15M33S" = 933 := by decide
example : parse_duration "bogus" = 0 := by decide
example : parse_duration "PTjunk" = 0 := by decide

/-! ### Candidates and the VideoFilter (`get_latest_videos`, lines 179-250) -/

/-- One item of the `videos().list` response: the fields
`get_latest_videos` reads.  `privacyStatus` is `video['status'].get(
'privacyStatus', 'public')`, so absence is representable; likewise the
snippet's optional `description`. -/
structure RawVideo where
  id : String
  duration : String
  privacyStatus : Option String
  title : String
  publishedAt : String
  channelTitle : String
  description : Option String
deriving DecidableEq

/-- The dict appended to `valid_videos` (lines 235-242). -/
structure Video where
  id : String
  title : String
  published : String
  channel : String
  description : String
  duration_seconds : Nat
deriving DecidableEq

/-- The privacy check of lines 224-225: missing status defaults to
`'public'`; the video is kept iff the (defaulted) status equals `public`. -/
def isPublic (v : RawVideo) : Bool :=
  v.privacyStatus.getD "public" == "public"

/-- Lines 235-242: build the accepted-candidate dict. -/
def toVideo (v : RawVideo) : Video :=
  { id := v.id
    title := v.title
    published := v.publishedAt
    channel := v.channelTitle
    description := v.description.getD ""
    duration_seconds := parse_duration v.duration }

/-- The second-pass filtering loop of lines 210-242: stop as soon as
`count` candidates are collected (checked at the top of each iteration),
skip non-public items, append accepted items in input order. -/
def selectLoop (count : Nat) (acc : List Video) : List RawVideo → List Video
  | [] => acc
  | v :: rest =>
    if acc.length ≥ count then acc
    else if isPublic v then selectLoop count (acc ++ [toVideo v]) rest
    else selectLoop count acc rest

/-- `YouTubeMonitor.get_latest_videos` on a fetched details list. -/
def get_latest_videos (raw : List RawVideo) (count : Nat) : List Video :=
  selectLoop count [] raw

/-! ### External oracle and run state -/

/-- Outcome of a fetch of one caption track: `transcript.fetch()` (or
`transcript.translate('en').fetch()`) either returns a list of segments or
raises (absorbed by the bare inner `except:` clauses, lines 349-365). -/
inductive TrackFetch where
  | ok (segments : List String)
  | err
deriving DecidableEq

/-- The three caption-track strategies attempted in order at lines 349-365:
a manually created English track, an auto-generated English track, and any
track translated to English.  (An empty listing makes the translate loop
assign nothing; the resulting name error reaches the outer handler without a
restricted marker and behaves exactly like `translated = err`.) -/
structure CaptionListing where
  manual : TrackFetch
  generated : TrackFetch
  translated : TrackFetch
deriving DecidableEq

/-- Outcome of the caption-track lookup `api.list(video_id)` (line 346):
either it raises with some message (checked against the restricted markers at
lines 373-378) or it yields a listing to cascade through. -/
inductive CaptionResult where
  | raised (msg : String)
  | listing (l : CaptionListing)
deriving DecidableEq

/-- Outcome of the yt-dlp download in `download_audio` (lines 294-302):
the download completes and the output file exists, or it raises with some
message, or it completes but the output file is missing. -/
inductive DownloadOutcome where
  | ok
  | raised (msg : String)
  | fileMissing
deriving DecidableEq

/-- Deterministic oracle for all external collaborators, read at exactly the
arguments the Python call sites pass.  `summarize` is
`self.model.generate_content(prompt)`: success text or an exception message.
`transcribe` is the Gemini transcription of a downloaded audio file
(`transcribe_audio_with_gemini` returns `None` on any exception). -/
structure World where
  channelId : String → Option String
  feedVideos : String → List RawVideo
  captionList : String → CaptionResult
  audioDownload : String → DownloadOutcome
  transcribe : String → Option String
  summarize : String → Except String String

/-- A row handed to `db_manager.insert_video_summary` (lines 589-602);
`key_topics`, `recommendations` and `action_items` are always `None`. -/
structure DbRecord where
  video_id : String
  channel_name : String
  video_title : String
  video_url : String
  published_date : String
  source_type : String
  summary_text : String
  duration_seconds : Nat
  key_topics : Option String
  recommendations : Option String
  action_items : Option String
deriving DecidableEq

/-- Mutable state threaded through a run: the in-memory processed set
(`self.processed_videos`), the last successful transcript method
(`self._last_transcript_method`, absent until first set — `getattr` default),
which scratch audio files currently exist, the database rows written so far,
the run's accumulated summary blocks (`all_summaries`), and logs of the
download / transcription / summarization calls made. -/
structure RunState where
  processed : List String
  lastMethod : Option String
  files : String → Bool
  writes : List DbRecord
  summaries : List String
  downloadCalls : List String
  transcribeCalls : List String
  summarizeCalls : List String

/-- State of a freshly constructed monitor whose durable processed file
holds `p` (`_load_processed_videos`, lines 149-154). -/
def freshState (p : List String) : RunState :=
  { processed := p, lastMethod := none, files := fun _ => false
    writes := [], summaries := [], downloadCalls := []
    transcribeCalls := [], summarizeCalls := [] }

/-! ### TranscriptResolver (`download_audio`, `transcribe_audio_with_gemini`,
`get_transcript`, lines 269-406) -/

/-- The scratch location `tempfile.gettempdir()/youtube_monitor_audio/
{video_id}.mp3` (lines 273-276). -/
def scratchPath (videoId : String) : String :=
  "youtube_monitor_audio/" ++ videoId ++ ".mp3"

/-- Python result of `download_audio`: a path string, the `"MEMBERS_ONLY"`
sentinel, or `None`. -/
inductive AudioDl where
  | path (p : String)
  | membersOnly
  | failed
deriving DecidableEq

/-- `YouTubeMonitor.download_audio` (lines 269-310): on success the scratch
file exists and its path is returned; on an exception whose lowered text
contains a restricted marker the `"MEMBERS_ONLY"` sentinel is returned; on
any other exception, or when the output file is missing, `None`. -/
def download_audio (w : World) (st : RunState) (videoId : String) :
    AudioDl × RunState :=
  match w.audioDownload videoId with
  | .ok =>
    (.path (scratchPath videoId),
      { st with
          downloadCalls := st.downloadCalls ++ [videoId]
          files := fun q => if q = scratchPath videoId then true else st.files q })
  | .raised msg =>
    if hasDownloadRestrictedMarker msg then
      (.membersOnly, { st with downloadCalls := st.downloadCalls ++ [videoId] })
    else (.failed, { st with downloadCalls := st.downloadCalls ++ [videoId] })
  | .fileMissing =>
    (.failed, { st with downloadCalls := st.downloadCalls ++ [videoId] })

/-- `YouTubeMonitor.transcribe_audio_with_gemini` (lines 312-338): one
blocking transcription call; any exception is caught and yields `None`. -/
def transcribe_audio_with_gemini (w : World) (st : RunState) (audioPath : String) :
    Option String × RunState :=
  (w.transcribe audioPath,
    { st with transcribeCalls := st.transcribeCalls ++ [audioPath] })

/-- Python result of `get_transcript`: the `"MEMBERS_ONLY"` sentinel, a
transcript string (possibly empty), or `None`. -/
inductive TResult where
  | membersOnly
  | text (t : String)
  | noTranscript
deriving DecidableEq

/-- Python truthiness of the `get_transcript` result (`if not transcript`):
`None` and the empty string are falsy; the `"MEMBERS_ONLY"` sentinel is a
non-empty string and hence truthy. -/
def truthyTranscript : TResult → Bool
  | .membersOnly => true
  | .text t => !(t == "")
  | .noTranscript => false

/-- The caption cascade of lines 349-365: first non-raising fetch wins
(manual, then generated, then translated); `none` when all three raise. -/
def captionCascade (l : CaptionListing) : Option (List String) :=
  match l.manual with
  | .ok segs => some segs
  | .err =>
    match l.generated with
    | .ok segs => some segs
    | .err =>
      match l.translated with
      | .ok segs => some segs
      | .err => none

/-- The audio fallback of `get_transcript`, lines 381-406: download, bail on
the restriction sentinel or a failed download, otherwise transcribe, then
always unlink the scratch file (lines 397-401), and record
`_last_transcript_method = 'audio_transcription'` only when the transcript
is truthy (lines 403-404). -/
def audioFallback (w : World) (st : RunState) (videoId : String) :
    TResult × RunState :=
  match download_audio w st videoId with
  | (.membersOnly, st1) => (.membersOnly, st1)
  | (.failed, st1) => (.noTranscript, st1)
  | (.path p, st1) =>
    match transcribe_audio_with_gemini w st1 p with
    | (some t, st2) =>
      if t == "" then
        (.text t, { st2 with files := fun q => if q = p then false else st2.files q })
      else
        (.text t,
          { st2 with
              files := fun q => if q = p then false else st2.files q
              lastMethod := some "audio_transcription" })
    | (none, st2) =>
      (.noTranscript,
        { st2 with files := fun q => if q = p then false else st2.files q })

/-- `YouTubeMonitor.get_transcript` (lines 340-406).  A raising caption
lookup whose message carries a restricted marker returns the sentinel at
once (lines 373-378); a truthy caption cascade result is joined with spaces
and recorded as `youtube_captions` (lines 367-371); everything else falls to
the audio fallback. -/
def get_transcript (w : World) (st : RunState) (videoId : String) :
    TResult × RunState :=
  match w.captionList videoId with
  | .raised msg =>
    if hasRestrictedMarker msg then (.membersOnly, st)
    else audioFallback w st videoId
  | .listing l =>
    match captionCascade l with
    | some segs =>
      if segs.isEmpty then audioFallback w st videoId
      else
        (.text (String.intercalate " " segs),
          { st with lastMethod := some "youtube_captions" })
    | none => audioFallback w st videoId

/-! ### Profile configuration and the summarization stage
(`generate_summary`, lines 408-478) -/

/-- The fields of the profile YAML dict that `check_channels` and
`generate_summary` touch.  `prompt` is the profile's template applied by
`str.format(title=…, channel=…, published=…, transcript=…)` (lines 465-470),
modelled as the external formatter it is.  `videos_per_channel` is present in
the legacy configuration (and loadable from a profile YAML) but is never read
by the monitor.  `skip_no_transcript` is `profile_config.get(
'skip_no_transcript', False)` (line 556). -/
structure ProfileConfig where
  channels : List String
  prompt : String → String → String → String → String
  skip_no_transcript : Bool
  videos_per_channel : Option Nat

/-- The inline description-analysis prompt of lines 422-441 (an f-string,
not the profile template). -/
def descriptionPrompt (v : Video) : String :=
  "Analyze this financial video based on its description and provide a summary for a Product Leader.\n\nVideo Title: "
    ++ v.title ++ "\nChannel: " ++ v.channel ++ "\nPublished: " ++ v.published
    ++ "\n\nDescription:\n" ++ v.description
    ++ "\n\nBased on this information, please provide:\n1. Specific Tickers: List any stocks or assets you can identify from the title/description\n2. Price Info: Any price targets or levels mentioned\n3. The Rating: What sentiment does the title/description suggest? (Bullish/Bearish/Neutral)\n4. The 'Why': What appears to be the main topic or thesis based on available info\n5. Actionability: Recommend watching the video at the URL below for full details\n\nNote: This summary is based on limited information (title and description only) since the video transcript was not available.\n\nVIDEO URL: https://youtube.com/watch?v="
    ++ v.id ++ "\n"

/-- The last-resort notice of lines 450-458, returned when neither transcript
nor a usable description (or its summarization) is available. -/
def lastResortNotice (v : Video) : String :=
  "⚠️ Unable to generate detailed summary - transcript and description not available\n\nThis video was recently published and may not have captions yet. Try checking back later or watch it directly:\n\nTitle: "
    ++ v.title ++ "\nChannel: " ++ v.channel
    ++ "\nURL: https://youtube.com/watch?v=" ++ v.id
    ++ "\n\nRecommendation: Watch the video directly to get the full analysis."

/-- The marker prepended to a description-based summary (line 444). -/
def limitedInfoMarker : String :=
  "⚠️ LIMITED INFO - Transcript not available, summary based on description only:\n\n"

/-- The transcript truncation of lines 461-463. -/
def truncateTranscript (t : String) : String :=
  if t.length > 100000 then t.take 100000 ++ "... [transcript truncated]" else t

/-- Python result of `generate_summary`: the `"SKIP_MEMBERS_ONLY"` sentinel
or a summary string. -/
inductive SummaryOutcome where
  | skipMembersOnly
  | text (s : String)
deriving DecidableEq

/-- Lines 417-458: the no-transcript branch of `generate_summary`.  With a
truthy description longer than 50 characters, one summarization call over the
description prompt; on its success the limited-info marker is prepended, on
its failure control falls through to the last-resort notice, which is also
returned when the description is absent or short. -/
def descriptionBranch (w : World) (st : RunState) (v : Video) :
    SummaryOutcome × RunState :=
  if v.description ≠ "" ∧ v.description.length > 50 then
    match w.summarize (descriptionPrompt v) with
    | .ok s =>
      (.text (limitedInfoMarker ++ s),
        { st with summarizeCalls := st.summarizeCalls ++ [descriptionPrompt v] })
    | .error _ =>
      (.text (lastResortNotice v),
        { st with summarizeCalls := st.summarizeCalls ++ [descriptionPrompt v] })
  else (.text (lastResortNotice v), st)

/-- `YouTubeMonitor.generate_summary` (lines 408-478): resolve the
transcript; the `"MEMBERS_ONLY"` sentinel short-circuits to
`"SKIP_MEMBERS_ONLY"` before any model call (lines 412-414); a falsy
(absent or empty) transcript goes to the description branch; otherwise the
transcript is truncated, interpolated into the profile prompt, and
summarized, an exception degrading to the error-notice text
(lines 476-478). -/
def generate_summary (cfg : ProfileConfig) (w : World) (st : RunState)
    (v : Video) : SummaryOutcome × RunState :=
  match get_transcript w st v.id with
  | (.membersOnly, st1) => (.skipMembersOnly, st1)
  | (.noTranscript, st1) => descriptionBranch w st1 v
  | (.text t, st1) =>
    if t == "" then descriptionBranch w st1 v
    else
      match w.summarize (cfg.prompt v.title v.channel v.published
          (truncateTranscript t)) with
      | .ok s =>
        (.text s,
          { st1 with
              summarizeCalls := st1.summarizeCalls ++
                [cfg.prompt v.title v.channel v.published (truncateTranscript t)] })
      | .error e =>
        (.text ("⚠️ Error generating summary: " ++ e),
          { st1 with
              summarizeCalls := st1.summarizeCalls ++
                [cfg.prompt v.title v.channel v.published (truncateTranscript t)] })

/-! ### SummaryPipeline (`check_channels`, lines 523-640) -/

/-- A row of `'='*60`. -/
def sepLine : String := String.mk (List.replicate 60 '=')

/-- The `video_summary` block of lines 574-584. -/
def mkVideoSummaryBlock (v : Video) (summary : String) : String :=
  "\n" ++ sepLine ++ "\n📺 " ++ v.title ++ "\n" ++ sepLine
    ++ "\nChannel: " ++ v.channel ++ "\nPublished: " ++ v.published
    ++ "\nDuration: " ++ toString v.duration_seconds ++ "s"
    ++ "\nURL: https://youtube.com/watch?v=" ++ v.id
    ++ "\n\n" ++ summary ++ "\n"

/-- The database row built at lines 589-602. -/
def mkDbRecord (v : Video) (sourceType summary : String) : DbRecord :=
  { video_id := v.id
    channel_name := v.channel
    video_title := v.title
    video_url := "https://youtube.com/watch?v=" ++ v.id
    published_date := v.published
    source_type := sourceType
    summary_text := summary
    duration_seconds := v.duration_seconds
    key_topics := none
    recommendations := none
    action_items := none }

/-- Lines 563-607 for one not-yet-processed candidate that passed the
`skip_no_transcript` pre-check: generate the summary; the
`"SKIP_MEMBERS_ONLY"` sentinel marks processed and skips; otherwise the
source type is `getattr(self, '_last_transcript_method',
'youtube_captions')`, the block is accumulated, the id marked processed and
one database row inserted. -/
def processCore (cfg : ProfileConfig) (w : World) (st : RunState)
    (v : Video) : RunState :=
  match generate_summary cfg w st v with
  | (.skipMembersOnly, st1) => { st1 with processed := st1.processed ++ [v.id] }
  | (.text summary, st1) =>
    { st1 with
        summaries := st1.summaries ++ [mkVideoSummaryBlock v summary]
        processed := st1.processed ++ [v.id]
        writes := st1.writes ++
          [mkDbRecord v (st1.lastMethod.getD "youtube_captions") summary] }

/-- The per-candidate body of the `check_channels` loop (lines 545-607):
skip ids already in the processed set (lines 546-548); when the profile's
`skip_no_transcript` flag is set, resolve the transcript first and, if the
result is falsy, mark processed and skip (lines 556-561); otherwise continue
into summarization and persistence. -/
def processVideo (cfg : ProfileConfig) (w : World) (st : RunState)
    (v : Video) : RunState :=
  if v.id ∈ st.processed then st
  else if cfg.skip_no_transcript then
    match get_transcript w st v.id with
    | (r, st1) =>
      if truthyTranscript r then processCore cfg w st1 v
      else { st1 with processed := st1.processed ++ [v.id] }
  else processCore cfg w st v

/-- One iteration of the channel loop (lines 532-543): resolve the handle to
a channel id (a failure skips the channel), fetch and filter the latest
videos with the literal count 3 of line 542, and process each in order. -/
def runChannel (cfg : ProfileConfig) (w : World) (st : RunState)
    (handle : String) : RunState :=
  match w.channelId handle with
  | none => st
  | some cid =>
    (get_latest_videos (w.feedVideos cid) 3).foldl (processVideo cfg w) st

/-- `YouTubeMonitor.check_channels` (lines 523-640), up to the terminating
`_save_processed_videos()` flush: the durable processed file afterwards holds
exactly the final state's `processed` field.  (The digest file/email of lines
614-634 consume only `all_summaries` and are external side effects.) -/
def check_channels (cfg : ProfileConfig) (w : World) (st : RunState) :
    RunState :=
  cfg.channels.foldl (runChannel cfg w) st

/-! ### Frame lemmas: which state fields each stage leaves untouched -/

/-- The transcript-resolution stages touch only `files`, `lastMethod` and the
download/transcription call logs. -/
def coreFrame (st st' : RunState) : Prop :=
  st'.processed = st.processed ∧ st'.writes = st.writes ∧
    st'.summaries = st.summaries ∧ st'.summarizeCalls = st.summarizeCalls

lemma coreFrame_refl (st : RunState) : coreFrame st st :=
  ⟨rfl, rfl, rfl, rfl⟩

lemma coreFrame_trans {a b c : RunState} (h1 : coreFrame a b)
    (h2 : coreFrame b c) : coreFrame a c := by
  unfold coreFrame at *
  exact ⟨h2.1.trans h1.1, h2.2.1.trans h1.2.1, h2.2.2.1.trans h1.2.2.1,
    h2.2.2.2.trans h1.2.2.2⟩

lemma download_audio_frame (w : World) (st : RunState) (vid : String) :
    coreFrame st (download_audio w st vid).2 := by
  unfold coreFrame download_audio
  split
  · exact ⟨rfl, rfl, rfl, rfl⟩
  · split
    · exact ⟨rfl, rfl, rfl, rfl⟩
    · exact ⟨rfl, rfl, rfl, rfl⟩
  · exact ⟨rfl, rfl, rfl, rfl⟩

lemma audioFallback_frame (w : World) (st : RunState) (vid : String) :
    coreFrame st (audioFallback w st vid).2 := by
  have hd := download_audio_frame w st vid
  unfold audioFallback
  split
  all_goals rename_i heq
  · rw [heq] at hd; exact hd
  · rw [heq] at hd; exact hd
  · rename_i p st1
    rw [heq] at hd
    unfold coreFrame at hd ⊢
    split
    all_goals rename_i heq2
    · split
      all_goals
        simp only [transcribe_audio_with_gemini, Prod.mk.injEq] at heq2
      all_goals rw [← heq2.2]
      all_goals exact ⟨hd.1, hd.2.1, hd.2.2.1, hd.2.2.2⟩
    · simp only [transcribe_audio_with_gemini, Prod.mk.injEq] at heq2
      rw [← heq2.2]
      exact ⟨hd.1, hd.2.1, hd.2.2.1, hd.2.2.2⟩

lemma get_transcript_frame (w : World) (st : RunState) (vid : String) :
    coreFrame st (get_transcript w st vid).2 := by
  unfold get_transcript
  split
  · split
    · exact coreFrame_refl st
    · exact audioFallback_frame w st vid
  · split
    · split
      · exact audioFallback_frame w st vid
      · exact ⟨rfl, rfl, rfl, rfl⟩
    · exact audioFallback_frame w st vid

lemma descriptionBranch_frame (w : World) (st : RunState) (v : Video) :
    (descriptionBranch w st v).2.processed = st.processed ∧
      (descriptionBranch w st v).2.writes = st.writes ∧
      (descriptionBranch w st v).2.summaries = st.summaries := by
  unfold descriptionBranch
  split
  · split
    · exact ⟨rfl, rfl, rfl⟩
    · exact ⟨rfl, rfl, rfl⟩
  · exact ⟨rfl, rfl, rfl⟩

/-- `generate_summary` may append to `summarizeCalls` but never touches the
processed set, the database writes or the summary list. -/
lemma generate_summary_frame (cfg : ProfileConfig) (w : World)
    (st : RunState) (v : Video) :
    (generate_summary cfg w st v).2.processed = st.processed ∧
      (generate_summary cfg w st v).2.writes = st.writes ∧
      (generate_summary cfg w st v).2.summaries = st.summaries := by
  have hg := get_transcript_frame w st v.id
  unfold coreFrame at hg
  unfold generate_summary
  split
  all_goals rename_i heq
  · rw [heq] at hg
    exact ⟨hg.1, hg.2.1, hg.2.2.1⟩
  · rw [heq] at hg
    rename_i st1
    have hb := descriptionBranch_frame w st1 v
    exact ⟨hb.1.trans hg.1, hb.2.1.trans hg.2.1, hb.2.2.trans hg.2.2.1⟩
  · rw [heq] at hg
    rename_i t st1
    split
    · have hb := descriptionBranch_frame w st1 v
      exact ⟨hb.1.trans hg.1, hb.2.1.trans hg.2.1, hb.2.2.trans hg.2.2.1⟩
    · split
      · exact ⟨hg.1, hg.2.1, hg.2.2.1⟩
      · exact ⟨hg.1, hg.2.1, hg.2.2.1⟩

/-! ### The resolution outcome depends only on the oracle and the video id,
not on the threaded state -/

lemma download_audio_fst (w : World) (st st' : RunState) (vid : String) :
    (download_audio w st vid).1 = (download_audio w st' vid).1 := by
  unfold download_audio
  cases h : w.audioDownload vid
  · rfl
  · rename_i msg
    by_cases hm : hasDownloadRestrictedMarker msg <;> simp [hm]
  · rfl

lemma audioFallback_fst (w : World) (st st' : RunState) (vid : String) :
    (audioFallback w st vid).1 = (audioFallback w st' vid).1 := by
  have hfst := download_audio_fst w st st' vid
  unfold audioFallback
  rcases h1 : download_audio w st vid with ⟨a, st1⟩
  rcases h2 : download_audio w st' vid with ⟨a', st1'⟩
  rw [h1, h2] at hfst
  replace hfst : a = a' := hfst
  subst hfst
  cases a with
  | membersOnly => rfl
  | failed => rfl
  | path p =>
    dsimp only
    rcases ht1 : transcribe_audio_with_gemini w st1 p with ⟨tr, st2⟩
    rcases ht2 : transcribe_audio_with_gemini w st1' p with ⟨tr', st2'⟩
    have e1 : tr = w.transcribe p := by
      have h := congrArg Prod.fst ht1
      simpa [transcribe_audio_with_gemini] using h.symm
    have e2 : tr' = w.transcribe p := by
      have h := congrArg Prod.fst ht2
      simpa [transcribe_audio_with_gemini] using h.symm
    subst e1
    rw [e2]
    cases w.transcribe p with
    | some t => dsimp only; split <;> rfl
    | none => rfl

lemma get_transcript_fst (w : World) (st st' : RunState) (vid : String) :
    (get_transcript w st vid).1 = (get_transcript w st' vid).1 := by
  unfold get_transcript
  cases h : w.captionList vid with
  | raised msg =>
    dsimp only
    by_cases hm : hasRestrictedMarker msg
    · simp [hm]
    · simp only [hm, Bool.false_eq_true, if_false]
      exact audioFallback_fst w st st' vid
  | listing l =>
    dsimp only
    cases hc : captionCascade l with
    | some segs =>
      dsimp only
      by_cases he : segs.isEmpty
      · simp only [he, if_true]
        exact audioFallback_fst w st st' vid
      · simp [he]
    | none =>
      dsimp only
      exact audioFallback_fst w st st' vid

/-! ### ProcessedSetTracker behaviour of the per-candidate step -/

/-- `processCore` always appends exactly the candidate's id to the
processed set. -/
lemma processCore_processed (cfg : ProfileConfig) (w : World)
    (st : RunState) (v : Video) :
    (processCore cfg w st v).processed = st.processed ++ [v.id] := by
  have hf := (generate_summary_frame cfg w st v).1
  unfold processCore
  split
  all_goals rename_i st1 heq
  · rw [heq] at hf
    simpa using hf
  · rw [heq] at hf
    simpa using hf

/-- Lines 546-548: an id already in the processed set is skipped with no
state change at all. -/
lemma processVideo_skip (cfg : ProfileConfig) (w : World) (st : RunState)
    (v : Video) (h : v.id ∈ st.processed) : processVideo cfg w st v = st := by
  unfold processVideo
  rw [if_pos h]

/-- A not-yet-processed candidate always ends the step with exactly its id
appended. -/
lemma processVideo_processed (cfg : ProfileConfig) (w : World)
    (st : RunState) (v : Video) (h : v.id ∉ st.processed) :
    (processVideo cfg w st v).processed = st.processed ++ [v.id] := by
  unfold processVideo
  rw [if_neg h]
  split
  · rcases hr : get_transcript w st v.id with ⟨r, st1⟩
    have hf := (get_transcript_frame w st v.id).1
    rw [hr] at hf
    replace hf : st1.processed = st.processed := hf
    dsimp only
    split
    · rw [processCore_processed, hf]
    · simp [hf]
  · exact processCore_processed cfg w st v

lemma processVideo_mem_self (cfg : ProfileConfig) (w : World)
    (st : RunState) (v : Video) :
    v.id ∈ (processVideo cfg w st v).processed := by
  by_cases h : v.id ∈ st.processed
  · rw [processVideo_skip cfg w st v h]; exact h
  · rw [processVideo_processed cfg w st v h]; simp

lemma processVideo_mem_mono (cfg : ProfileConfig) (w : World)
    (st : RunState) (v : Video) (x : String) (h : x ∈ st.processed) :
    x ∈ (processVideo cfg w st v).processed := by
  by_cases hm : v.id ∈ st.processed
  · rw [processVideo_skip cfg w st v hm]; exact h
  · rw [processVideo_processed cfg w st v hm]; exact List.mem_append_left _ h

lemma foldlPV_mem_mono (cfg : ProfileConfig) (w : World) :
    ∀ (vs : List Video) (st : RunState) (x : String), x ∈ st.processed →
      x ∈ (vs.foldl (processVideo cfg w) st).processed := by
  intro vs
  induction vs with
  | nil => intro st x h; simpa using h
  | cons v rest ih =>
    intro st x h
    exact ih _ _ (processVideo_mem_mono cfg w st v x h)

lemma foldlPV_mem_all (cfg : ProfileConfig) (w : World) :
    ∀ (vs : List Video) (st : RunState) (v : Video), v ∈ vs →
      v.id ∈ (vs.foldl (processVideo cfg w) st).processed := by
  intro vs
  induction vs with
  | nil => intro st v h; simp at h
  | cons u rest ih =>
    intro st v h
    rcases List.mem_cons.mp h with h | h
    · subst h
      exact foldlPV_mem_mono cfg w rest _ v.id
        (processVideo_mem_self cfg w st v)
    · exact ih _ v h

lemma foldlPV_skip_all (cfg : ProfileConfig) (w : World) :
    ∀ (vs : List Video) (st : RunState),
      (∀ v ∈ vs, v.id ∈ st.processed) →
      vs.foldl (processVideo cfg w) st = st := by
  intro vs
  induction vs with
  | nil => intro st _; rfl
  | cons u rest ih =>
    intro st h
    have hu : processVideo cfg w st u = st :=
      processVideo_skip cfg w st u (h u (List.mem_cons_self u rest))
    simp only [List.foldl_cons, hu]
    exact ih st fun v hv => h v (List.mem_cons_of_mem u hv)

lemma runChannel_mem_mono (cfg : ProfileConfig) (w : World) (st : RunState)
    (handle : String) (x : String) (h : x ∈ st.processed) :
    x ∈ (runChannel cfg w st handle).processed := by
  unfold runChannel
  cases w.channelId handle with
  | none => exact h
  | some cid => exact foldlPV_mem_mono cfg w _ st x h

lemma runChannel_mem_all (cfg : ProfileConfig) (w : World) (st : RunState)
    (handle : String) (cid : String) (hcid : w.channelId handle = some cid)
    (v : Video) (hv : v ∈ get_latest_videos (w.feedVideos cid) 3) :
    v.id ∈ (runChannel cfg w st handle).processed := by
  unfold runChannel
  rw [hcid]
  exact foldlPV_mem_all cfg w _ st v hv

lemma runChannel_skip_all (cfg : ProfileConfig) (w : World) (st : RunState)
    (handle : String)
    (h : ∀ cid, w.channelId handle = some cid →
      ∀ v ∈ get_latest_videos (w.feedVideos cid) 3, v.id ∈ st.processed) :
    runChannel cfg w st handle = st := by
  unfold runChannel
  cases hcid : w.channelId handle with
  | none => rfl
  | some cid => exact foldlPV_skip_all cfg w _ st (h cid hcid)

lemma foldlRC_mem_mono (cfg : ProfileConfig) (w : World) :
    ∀ (hs : List String) (st : RunState) (x : String), x ∈ st.processed →
      x ∈ (hs.foldl (runChannel cfg w) st).processed := by
  intro hs
  induction hs with
  | nil => intro st x h; simpa using h
  | cons handle rest ih =>
    intro st x h
    exact ih _ _ (runChannel_mem_mono cfg w st handle x h)

lemma foldlRC_mem_all (cfg : ProfileConfig) (w : World) :
    ∀ (hs : List String) (st : RunState) (handle : String), handle ∈ hs →
      ∀ cid, w.channelId handle = some cid →
      ∀ v ∈ get_latest_videos (w.feedVideos cid) 3,
      v.id ∈ (hs.foldl (runChannel cfg w) st).processed := by
  intro hs
  induction hs with
  | nil => intro st handle h; simp at h
  | cons u rest ih =>
    intro st handle h cid hcid v hv
    rcases List.mem_cons.mp h with h | h
    · subst h
      exact foldlRC_mem_mono cfg w rest _ v.id
        (runChannel_mem_all cfg w st handle cid hcid v hv)
    · exact ih _ handle h cid hcid v hv

/-- Every candidate surfaced by any configured channel of a run is in the
processed set when the run ends (and hence in the durable file after the
flush). -/
lemma check_channels_mem_all (cfg : ProfileConfig) (w : World)
    (st : RunState) (handle : String) (hh : handle ∈ cfg.channels)
    (cid : String) (hcid : w.channelId handle = some cid)
    (v : Video) (hv : v ∈ get_latest_videos (w.feedVideos cid) 3) :
    v.id ∈ (check_channels cfg w st).processed :=
  foldlRC_mem_all cfg w cfg.channels st handle hh cid hcid v hv

lemma foldlRC_skip_all (cfg : ProfileConfig) (w : World) :
    ∀ (hs : List String) (st : RunState),
      (∀ handle ∈ hs, ∀ cid, w.channelId handle = some cid →
        ∀ v ∈ get_latest_videos (w.feedVideos cid) 3, v.id ∈ st.processed) →
      hs.foldl (runChannel cfg w) st = st := by
  intro hs
  induction hs with
  | nil => intro st _; rfl
  | cons u rest ih =>
    intro st h
    have hu : runChannel cfg w st u = st :=
      runChannel_skip_all cfg w st u (h u (List.mem_cons_self u rest))
    simp only [List.foldl_cons, hu]
    exact ih st fun handle hh => h handle (List.mem_cons_of_mem u hh)

/-- A run all of whose candidates are already processed changes nothing. -/
lemma check_channels_skip_all (cfg : ProfileConfig) (w : World)
    (st : RunState)
    (h : ∀ handle ∈ cfg.channels, ∀ cid, w.channelId handle = some cid →
      ∀ v ∈ get_latest_videos (w.feedVideos cid) 3, v.id ∈ st.processed) :
    check_channels cfg w st = st :=
  foldlRC_skip_all cfg w cfg.channels st h

/-! ### Sample data used to instantiate the theorems at concrete inputs -/

/-- A public candidate with captions available. -/
def rawSample : RawVideo :=
  { id := "vid1", duration := "PT5M", privacyStatus := some "public"
    title := "T", publishedAt := "2024-01-01", channelTitle := "Ch"
    description := some "short" }

def cfgSample : ProfileConfig :=
  { channels := ["@c"], prompt := fun t _ _ tr => t ++ ": " ++ tr
    skip_no_transcript := false, videos_per_channel := none }

def wSample : World :=
  { channelId := fun _ => some "CID"
    feedVideos := fun _ => [rawSample]
    captionList := fun _ => .listing ⟨.ok ["hello", "world"], .err, .err⟩
    audioDownload := fun _ => .raised "boom"
    transcribe := fun _ => none
    summarize := fun _ => .ok "a fine summary" }

/-! ## C1 — attempt-once idempotence -/

/-- C1: an id already in the processed set at the start of a run is skipped
with no state change at all (no resolution, no summarization, no Store
write); consequently, running `check_channels` a second time over an
unchanged oracle, starting from a fresh monitor whose durable processed file
holds the first run's flushed set, performs zero Store writes — whatever the
first run's per-item outcomes (including skips) were. -/
theorem claim_attempt_once_idempotence (cfg : ProfileConfig) (w : World)
    (p0 : List String) :
    (∀ (st : RunState) (v : Video), v.id ∈ st.processed →
      processVideo cfg w st v = st) ∧
    (check_channels cfg w (freshState
      ((check_channels cfg w (freshState p0)).processed))).writes = [] := by
  refine ⟨fun st v h => processVideo_skip cfg w st v h, ?_⟩
  have hall : ∀ handle ∈ cfg.channels, ∀ cid, w.channelId handle = some cid →
      ∀ v ∈ get_latest_videos (w.feedVideos cid) 3,
      v.id ∈ (freshState
        ((check_channels cfg w (freshState p0)).processed)).processed := by
    intro handle hh cid hcid v hv
    exact check_channels_mem_all cfg w (freshState p0) handle hh cid hcid v hv
  rw [check_channels_skip_all cfg w _ hall]
  rfl

/-- Witness for C1 at concrete inputs. -/
theorem claim_attempt_once_idempotence_witness :
    processVideo cfgSample wSample (freshState ["vid1"]) (toVideo rawSample) =
        freshState ["vid1"] ∧
      (check_channels cfgSample wSample (freshState
        ((check_channels cfgSample wSample (freshState [])).processed))).writes
        = [] :=
  ⟨(claim_attempt_once_idempotence cfgSample wSample []).1
      (freshState ["vid1"]) (toVideo rawSample) (by simp [freshState, toVideo, rawSample]),
    (claim_attempt_once_idempotence cfgSample wSample []).2⟩

/-! ### VideoFilter characterization -/

/-- The filtering loop keeps, in order, the public candidates, stopping once
the accumulator reaches `count`. -/
lemma selectLoop_eq (count : Nat) (raw : List RawVideo) :
    ∀ acc : List Video,
      selectLoop count acc raw =
        acc ++ (((raw.filter fun v => isPublic v).take
          (count - acc.length)).map toVideo) := by
  induction raw with
  | nil => intro acc; simp [selectLoop]
  | cons v rest ih =>
    intro acc
    simp only [selectLoop]
    by_cases hge : acc.length ≥ count
    · rw [if_pos hge]
      have h0 : count - acc.length = 0 := Nat.sub_eq_zero_of_le hge
      simp [h0]
    · rw [if_neg hge]
      by_cases hp : isPublic v
      · rw [if_pos hp, ih]
        have hk : count - acc.length = (count - (acc.length + 1)) + 1 := by
          omega
        rw [List.filter_cons_of_pos hp, List.length_append]
        simp only [List.length_singleton]
        rw [hk, List.take_succ_cons, List.map_cons]
        simp
      · rw [if_neg hp, ih, List.filter_cons_of_neg (by simpa using hp)]

/-- `get_latest_videos` returns exactly the first `count` public candidates,
in feed order. -/
lemma get_latest_videos_eq (raw : List RawVideo) (count : Nat) :
    get_latest_videos raw count =
      (((raw.filter fun v => isPublic v).take count).map toVideo) := by
  unfold get_latest_videos
  simpa using selectLoop_eq count raw []

/-- A raw candidate with the given id and privacy status, used for the
concrete filter examples. -/
def rawWithStatus (i s : String) : RawVideo :=
  { id := i, duration := "PT45S", privacyStatus := some s, title := "t" ++ i
    publishedAt := "2024", channelTitle := "Ch", description := some "" }

/-- A raw candidate whose `status` dict carries no `privacyStatus` key. -/
def rawNoStatus : RawVideo :=
  { id := "nostatus", duration := "PT2M", privacyStatus := none
    title := "n", publishedAt := "2024", channelTitle := "Ch"
    description := some "" }

/-! ## C6 — VideoFilter correctness -/

/-- C6: the filter returns at most `n` candidates; the result is exactly the
first `n` public candidates in input order (hence a subsequence of the input
consisting only of public items, containing every public candidate that
precedes the point where `n` have been collected); on
`[public, private, public, unlisted, public]` with `n = 2` it returns the
first and third candidates. -/
theorem claim_video_filter (raw : List RawVideo) (n : Nat) :
    (get_latest_videos raw n).length ≤ n ∧
    get_latest_videos raw n =
      (((raw.filter fun v => isPublic v).take n).map toVideo) ∧
    List.Sublist ((get_latest_videos raw n).map Video.id)
      (raw.map RawVideo.id) ∧
    get_latest_videos
        [rawWithStatus "a" "public", rawWithStatus "b" "private",
          rawWithStatus "c" "public", rawWithStatus "d" "unlisted",
          rawWithStatus "e" "public"] 2 =
      [toVideo (rawWithStatus "a" "public"),
        toVideo (rawWithStatus "c" "public")] := by
  refine ⟨?_, get_latest_videos_eq raw n, ?_, by decide⟩
  · rw [get_latest_videos_eq, List.length_map]
    exact List.length_take_le n _
  · rw [get_latest_videos_eq, List.map_map]
    have hcomp : Video.id ∘ toVideo = RawVideo.id := rfl
    rw [hcomp]
    exact ((List.take_sublist n _).trans (List.filter_sublist raw)).map
      RawVideo.id

/-! ## C10 — missing privacyStatus defaults to public -/

/-- C10: a candidate whose metadata lacks `privacyStatus` is treated as
public and is eligible for acceptance; a candidate is rejected by the
privacy check only when it carries an explicit status different from
`public`. -/
theorem claim_missing_privacy_defaults_public (v : RawVideo) :
    (v.privacyStatus = none →
      isPublic v = true ∧ get_latest_videos [v] 1 = [toVideo v]) ∧
    (isPublic v = false → ∃ s, v.privacyStatus = some s ∧ s ≠ "public") := by
  constructor
  · intro h
    have hp : isPublic v = true := by simp [isPublic, h]
    refine ⟨hp, ?_⟩
    rw [get_latest_videos_eq]
    simp [hp]
  · intro h
    cases hs : v.privacyStatus with
    | none =>
      rw [isPublic, hs] at h
      simp at h
    | some s =>
      refine ⟨s, rfl, ?_⟩
      intro hs'
      rw [isPublic, hs, hs'] at h
      simp at h

/-- Witness for C10: the candidate without a `privacyStatus` key is accepted. -/
theorem claim_missing_privacy_defaults_public_witness :
    isPublic rawNoStatus = true ∧
      get_latest_videos [rawNoStatus] 1 = [toVideo rawNoStatus] :=
  (claim_missing_privacy_defaults_public rawNoStatus).1 rfl

/-! ### DurationParser lemmas -/

/-- The optional group `(?:(\d+)L)?` rendered as concrete characters. -/
def optField : Option (List Char) → Char → List Char
  | some ds, L => ds ++ [L]
  | none, _ => []

/-- Numeric value of an optional group (`int(...) if group else 0`). -/
def optVal : Option (List Char) → Nat
  | some ds => digitsVal ds
  | none => 0

/-- A duration string of the shape `PT(\d+H)?(\d+M)?(\d+S)?`, one of the
eight presence/absence combinations. -/
def mkDurationStr (oh om os : Option (List Char)) : String :=
  String.mk ('P' :: 'T' :: (optField oh 'H' ++ (optField om 'M' ++ optField os 'S')))

lemma splitDigits_eq (ds : List Char) :
    ∀ r : List Char, (∀ c ∈ ds, c.isDigit = true) →
      (∀ c, r.head? = some c → c.isDigit = false) →
      splitDigits (ds ++ r) = (ds, r) := by
  induction ds with
  | nil =>
    intro r _ hr
    cases r with
    | nil => rfl
    | cons c rs => simp [splitDigits, hr c rfl]
  | cons d ds ih =>
    intro r hds hr
    have hd : d.isDigit = true := hds d (List.mem_cons_self d ds)
    simp [splitDigits, hd,
      ih r (fun c hc => hds c (List.mem_cons_of_mem d hc)) hr]

/-- A present group: maximal digits followed by the letter are consumed. -/
lemma tryField_hit (L : Char) (ds r : List Char) (hne : ds ≠ [])
    (hds : ∀ c ∈ ds, c.isDigit = true) (hL : L.isDigit = false) :
    tryField L (ds ++ L :: r) = (digitsVal ds, r) := by
  unfold tryField
  rw [splitDigits_eq ds (L :: r) hds (fun c hc => by
    simp only [List.head?_cons, Option.some.injEq] at hc
    rw [← hc]; exact hL)]
  obtain ⟨d, ds', rfl⟩ := List.exists_cons_of_ne_nil hne
  simp

/-- An absent group whose input starts with digits followed by a different
non-digit letter: nothing is consumed and the value is 0. -/
lemma tryField_skip (L : Char) (ds r : List Char) (c : Char)
    (hds : ∀ x ∈ ds, x.isDigit = true) (hc : c.isDigit = false)
    (hne : c ≠ L) :
    tryField L (ds ++ c :: r) = (0, ds ++ c :: r) := by
  unfold tryField
  rw [splitDigits_eq ds (c :: r) hds (fun x hx => by
    simp only [List.head?_cons, Option.some.injEq] at hx
    rw [← hx]; exact hc)]
  have hcl : (c == L) = false := by simp [hne]
  simp [hcl]

/-- An absent group at the end of the input (only digits or nothing left). -/
lemma tryField_end (L : Char) (ds : List Char)
    (hds : ∀ x ∈ ds, x.isDigit = true) :
    tryField L ds = (0, ds) := by
  unfold tryField
  rw [show splitDigits ds = (ds, []) from by
    simpa using splitDigits_eq ds [] hds (by intro c h; simp at h)]

lemma parseDurationChars_PT (stream : List Char) :
    parseDurationChars ('P' :: 'T' :: stream) =
      (tryField 'H' stream).1 * 3600 +
        (tryField 'M' (tryField 'H' stream).2).1 * 60 +
        (tryField 'S' (tryField 'M' (tryField 'H' stream).2).2).1 := rfl

/-! ## C7 — DurationParser correctness and totality -/

/-- C7: on every string of the shape `PT(nH)?(nM)?(nS)?` — all eight
presence/absence combinations, each `n` a nonempty digit run — the parser
returns `hours*3600 + minutes*60 + seconds`; every string that does not
start with `PT` fails the (all-optional-groups) regex match and yields 0;
and `PT1H2M3S`, `PT45S`, `PT` parse to 3723, 45, 0.  (The Lean model is a
total function, so no input can raise.) -/
theorem claim_duration_parse_total (oh om os : Option (List Char))
    (hh : ∀ ds ∈ oh, ds ≠ [] ∧ ∀ c ∈ ds, c.isDigit = true)
    (hm : ∀ ds ∈ om, ds ≠ [] ∧ ∀ c ∈ ds, c.isDigit = true)
    (hs : ∀ ds ∈ os, ds ≠ [] ∧ ∀ c ∈ ds, c.isDigit = true) :
    parse_duration (mkDurationStr oh om os) =
        optVal oh * 3600 + optVal om * 60 + optVal os ∧
      (∀ s : String, s.toList.take 2 ≠ ['P', 'T'] → parse_duration s = 0) ∧
      parse_duration "PT1H2M3S" = 3723 ∧ parse_duration "PT45S" = 45 ∧
      parse_duration "PT" = 0 := by
  refine ⟨?_, ?_, by decide, by decide, by decide⟩
  · have hS : tryField 'S' (optField os 'S') = (optVal os, []) := by
      rcases os with _ | sds
      · exact tryField_end 'S' [] (by simp)
      · have h := hs sds rfl
        exact tryField_hit 'S' sds [] h.1 h.2 (by decide)
    have hM : tryField 'M' (optField om 'M' ++ optField os 'S') =
        (optVal om, optField os 'S') := by
      rcases om with _ | mds
      · show tryField 'M' (optField os 'S') = (0, optField os 'S')
        rcases os with _ | sds
        · exact tryField_end 'M' [] (by simp)
        · have h := hs sds rfl
          exact tryField_skip 'M' sds [] 'S' h.2 (by decide) (by decide)
      · have h := hm mds rfl
        have he : optField (some mds) 'M' ++ optField os 'S' =
            mds ++ 'M' :: optField os 'S' := by
          simp [optField]
        rw [he]
        exact tryField_hit 'M' mds (optField os 'S') h.1 h.2 (by decide)
    have hH : tryField 'H'
        (optField oh 'H' ++ (optField om 'M' ++ optField os 'S')) =
        (optVal oh, optField om 'M' ++ optField os 'S') := by
      rcases oh with _ | hds
      · show tryField 'H' (optField om 'M' ++ optField os 'S') =
          (0, optField om 'M' ++ optField os 'S')
        rcases om with _ | mds
        · show tryField 'H' (optField os 'S') = (0, optField os 'S')
          rcases os with _ | sds
          · exact tryField_end 'H' [] (by simp)
          · have h := hs sds rfl
            exact tryField_skip 'H' sds [] 'S' h.2 (by decide) (by decide)
        · have h := hm mds rfl
          have he : optField (some mds) 'M' ++ optField os 'S' =
              mds ++ 'M' :: optField os 'S' := by
            simp [optField]
          rw [he]
          exact tryField_skip 'H' mds (optField os 'S') 'M' h.2 (by decide)
            (by decide)
      · have h := hh hds rfl
        have he : optField (some hds) 'H' ++
            (optField om 'M' ++ optField os 'S') =
            hds ++ 'H' :: (optField om 'M' ++ optField os 'S') := by
          simp [optField]
        rw [he]
        exact tryField_hit 'H' hds _ h.1 h.2 (by decide)
    show parseDurationChars (mkDurationStr oh om os).toList = _
    rw [show (mkDurationStr oh om os).toList =
      'P' :: 'T' :: (optField oh 'H' ++
        (optField om 'M' ++ optField os 'S')) from rfl]
    rw [parseDurationChars_PT, hH]
    simp only [hM, hS]
  · intro s hls
    show parseDurationChars s.toList = 0
    unfold parseDurationChars
    split
    · rename_i rest heq
      rw [heq] at hls
      simp at hls
    · rfl

/-- Witness for C7 at `PT45S` (hours and minutes absent). -/
theorem claim_duration_parse_total_witness :
    parse_duration (mkDurationStr none none (some ['4', '5'])) = 45 := by
  have h := (claim_duration_parse_total none none (some ['4', '5'])
    (by intro ds hds; cases hds) (by intro ds hds; cases hds)
    (by
      intro ds hds
      obtain rfl := (Option.some.inj hds).symm
      exact ⟨by decide, by decide⟩)).1
  simpa [optVal, digitsVal] using h

/-! ## C3 — restricted caption lookup short-circuits the resolver -/

/-- An oracle whose caption lookup raises a members-only error while the
audio path would succeed — used to witness that it is never taken. -/
def wRestricted : World :=
  { channelId := fun _ => some "CID"
    feedVideos := fun _ => [rawSample]
    captionList := fun _ =>
      .raised "Join this channel to get access to members only content"
    audioDownload := fun _ => .ok
    transcribe := fun _ => some "words"
    summarize := fun _ => .ok "sum" }

/-- C3: when the caption-track lookup raises with a restricted-content
marker (members only / join this channel / premium) in its lowered text, the
resolver returns the `"MEMBERS_ONLY"` sentinel with the state untouched — in
particular no audio download and no transcription call is ever made. -/
theorem claim_restricted_caption_short_circuit (w : World) (st : RunState)
    (vid msg : String) (hc : w.captionList vid = .raised msg)
    (hm : hasRestrictedMarker msg = true) :
    get_transcript w st vid = (.membersOnly, st) ∧
      (get_transcript w st vid).2.downloadCalls = st.downloadCalls ∧
      (get_transcript w st vid).2.transcribeCalls = st.transcribeCalls := by
  have h : get_transcript w st vid = (.membersOnly, st) := by
    unfold get_transcript
    rw [hc]
    simp [hm]
  exact ⟨h, by rw [h], by rw [h]⟩

/-- Witness for C3 on a concrete restricted error message. -/
theorem claim_restricted_caption_short_circuit_witness :
    get_transcript wRestricted (freshState []) "vidX" =
        (.membersOnly, freshState []) ∧
      (get_transcript wRestricted (freshState []) "vidX").2.downloadCalls =
        (freshState []).downloadCalls ∧
      (get_transcript wRestricted (freshState []) "vidX").2.transcribeCalls =
        (freshState []).transcribeCalls :=
  claim_restricted_caption_short_circuit wRestricted (freshState []) "vidX"
    "Join this channel to get access to members only content" rfl (by decide)

/-! ## C4 — RestrictedAccess short-circuits the pipeline step -/

lemma generate_summary_membersOnly (cfg : ProfileConfig) (w : World)
    (st : RunState) (v : Video)
    (hm : (get_transcript w st v.id).1 = .membersOnly) :
    generate_summary cfg w st v =
      (.skipMembersOnly, (get_transcript w st v.id).2) := by
  unfold generate_summary
  rcases hr : get_transcript w st v.id with ⟨r, st1⟩
  rw [hr] at hm
  replace hm : r = .membersOnly := hm
  subst hm
  rfl

lemma processCore_membersOnly (cfg : ProfileConfig) (w : World)
    (st : RunState) (v : Video)
    (hm : (get_transcript w st v.id).1 = .membersOnly) :
    processCore cfg w st v =
      { (get_transcript w st v.id).2 with
          processed := (get_transcript w st v.id).2.processed ++ [v.id] } := by
  unfold processCore
  rw [generate_summary_membersOnly cfg w st v hm]

/-- C4: a not-yet-processed accepted candidate whose transcript resolution
yields the `"MEMBERS_ONLY"` sentinel is marked processed and skipped: no
summarization call is made (the description fallback included), no summary
block is accumulated, and no Store write occurs. -/
theorem claim_restricted_skip_no_write (cfg : ProfileConfig) (w : World)
    (st : RunState) (v : Video) (hnp : v.id ∉ st.processed)
    (hm : (get_transcript w st v.id).1 = .membersOnly) :
    (processVideo cfg w st v).processed = st.processed ++ [v.id] ∧
      (processVideo cfg w st v).writes = st.writes ∧
      (processVideo cfg w st v).summaries = st.summaries ∧
      (processVideo cfg w st v).summarizeCalls = st.summarizeCalls := by
  unfold processVideo
  rw [if_neg hnp]
  split
  · rcases hr : get_transcript w st v.id with ⟨r, st1⟩
    dsimp only
    have hfr := get_transcript_frame w st v.id
    rw [hr] at hfr
    unfold coreFrame at hfr
    have hrm : r = .membersOnly := by rw [hr] at hm; exact hm
    subst hrm
    simp only [truthyTranscript, if_true]
    have hm1 : (get_transcript w st1 v.id).1 = .membersOnly := by
      rw [get_transcript_fst w st1 st v.id, hr]
    rw [processCore_membersOnly cfg w st1 v hm1]
    have hfr1 := get_transcript_frame w st1 v.id
    unfold coreFrame at hfr1
    refine ⟨?_, ?_, ?_, ?_⟩
    · show (get_transcript w st1 v.id).2.processed ++ [v.id] =
        st.processed ++ [v.id]
      rw [hfr1.1]
      exact congrArg (· ++ [v.id]) hfr.1
    · show (get_transcript w st1 v.id).2.writes = st.writes
      rw [hfr1.2.1]; exact hfr.2.1
    · show (get_transcript w st1 v.id).2.summaries = st.summaries
      rw [hfr1.2.2.1]; exact hfr.2.2.1
    · show (get_transcript w st1 v.id).2.summarizeCalls = st.summarizeCalls
      rw [hfr1.2.2.2]; exact hfr.2.2.2
  · rw [processCore_membersOnly cfg w st v hm]
    have hfr := get_transcript_frame w st v.id
    unfold coreFrame at hfr
    refine ⟨?_, hfr.2.1, hfr.2.2.1, hfr.2.2.2⟩
    show (get_transcript w st v.id).2.processed ++ [v.id] =
      st.processed ++ [v.id]
    exact congrArg (· ++ [v.id]) hfr.1

/-- Witness for C4: the members-only candidate is marked processed with no
write, no summary and no summarization call. -/
theorem claim_restricted_skip_no_write_witness :
    (processVideo cfgSample wRestricted (freshState [])
        (toVideo rawSample)).processed =
        (freshState []).processed ++ [(toVideo rawSample).id] ∧
      (processVideo cfgSample wRestricted (freshState [])
        (toVideo rawSample)).writes = (freshState []).writes ∧
      (processVideo cfgSample wRestricted (freshState [])
        (toVideo rawSample)).summaries = (freshState []).summaries ∧
      (processVideo cfgSample wRestricted (freshState [])
        (toVideo rawSample)).summarizeCalls = (freshState []).summarizeCalls :=
  claim_restricted_skip_no_write cfgSample wRestricted (freshState [])
    (toVideo rawSample) (by simp [freshState]) (by decide)

/-! ## C9 — scratch audio file cleanup on every exit path -/

/-- An oracle whose caption lookup fails non-restrictedly and whose audio
download succeeds. -/
def wCleanup : World :=
  { channelId := fun _ => some "CID"
    feedVideos := fun _ => [rawSample]
    captionList := fun _ => .raised "http error 500"
    audioDownload := fun _ => .ok
    transcribe := fun _ => some "words words"
    summarize := fun _ => .ok "sum" }

/-- C9: whenever the audio download succeeds (the scratch file comes into
existence), the fallback block deletes the scratch file before returning —
for every transcription outcome, success or failure — and touches no other
file; moreover on both caption-miss paths (a non-restricted lookup error, or
a listing whose cascade yields nothing) the resolver's result is exactly the
fallback block's, so the guarantee covers every resolver exit path that
downloaded audio. -/
theorem claim_scratch_cleanup (w : World) (st : RunState) (vid : String)
    (hok : w.audioDownload vid = .ok) :
    (audioFallback w st vid).2.files (scratchPath vid) = false ∧
      (∀ q, q ≠ scratchPath vid →
        (audioFallback w st vid).2.files q = st.files q) ∧
      (∀ msg, w.captionList vid = .raised msg →
        hasRestrictedMarker msg = false →
        get_transcript w st vid = audioFallback w st vid) ∧
      (∀ l, w.captionList vid = .listing l → captionCascade l = none →
        get_transcript w st vid = audioFallback w st vid) := by
  have hdl : download_audio w st vid =
      (.path (scratchPath vid),
        { st with
            downloadCalls := st.downloadCalls ++ [vid]
            files := fun q => if q = scratchPath vid then true
              else st.files q }) := by
    unfold download_audio
    rw [hok]
  have hfiles : (audioFallback w st vid).2.files (scratchPath vid) = false ∧
      ∀ q, q ≠ scratchPath vid →
        (audioFallback w st vid).2.files q = st.files q := by
    unfold audioFallback
    rw [hdl]
    dsimp only
    unfold transcribe_audio_with_gemini
    cases htr : w.transcribe (scratchPath vid) with
    | some t =>
      dsimp only
      by_cases h0 : t == ""
      · simp only [h0, if_true]
        exact ⟨by simp, fun q hq => by simp [hq]⟩
      · simp only [h0, Bool.false_eq_true, if_false]
        exact ⟨by simp, fun q hq => by simp [hq]⟩
    | none =>
      exact ⟨by simp, fun q hq => by simp [hq]⟩
  refine ⟨hfiles.1, hfiles.2, ?_, ?_⟩
  · intro msg hcap hmk
    unfold get_transcript
    rw [hcap]
    simp [hmk]
  · intro l hcap hcc
    unfold get_transcript
    rw [hcap]
    dsimp only
    rw [hcc]

/-- Witness for C9: successful download with successful transcription — the
scratch file is gone from the final state, and the resolver's behaviour is
the fallback's. -/
theorem claim_scratch_cleanup_witness :
    (audioFallback wCleanup (freshState []) "v9").2.files
        (scratchPath "v9") = false ∧
      get_transcript wCleanup (freshState []) "v9" =
        audioFallback wCleanup (freshState []) "v9" :=
  ⟨(claim_scratch_cleanup wCleanup (freshState []) "v9" rfl).1,
    (claim_scratch_cleanup wCleanup (freshState []) "v9" rfl).2.2.1
      "http error 500" rfl (by decide)⟩

/-! ## C5 — summarization-failure degradation and one write per candidate -/

lemma descriptionBranch_is_text (w : World) (st : RunState) (v : Video) :
    ∃ s, (descriptionBranch w st v).1 = SummaryOutcome.text s := by
  unfold descriptionBranch
  split
  · split
    · exact ⟨_, rfl⟩
    · exact ⟨_, rfl⟩
  · exact ⟨_, rfl⟩

/-- Every non-restricted resolution ends in some summary text (never a
dropped item). -/
lemma generate_summary_is_text (cfg : ProfileConfig) (w : World)
    (st : RunState) (v : Video)
    (hm : (get_transcript w st v.id).1 ≠ .membersOnly) :
    ∃ s, (generate_summary cfg w st v).1 = SummaryOutcome.text s := by
  unfold generate_summary
  rcases hr : get_transcript w st v.id with ⟨r, st1⟩
  rw [hr] at hm
  replace hm : r ≠ .membersOnly := hm
  cases r with
  | membersOnly => exact absurd rfl hm
  | noTranscript => exact descriptionBranch_is_text w st1 v
  | text t =>
    dsimp only
    by_cases h0 : (t == "") = true
    · simp only [h0, if_true]
      exact descriptionBranch_is_text w st1 v
    · simp only [h0, if_false]
      cases w.summarize (cfg.prompt v.title v.channel v.published
        (truncateTranscript t)) with
      | ok s => exact ⟨_, rfl⟩
      | error e => exact ⟨_, rfl⟩

/-- A summarization exception over a resolved transcript degrades to the
error-notice text. -/
lemma generate_summary_error_case (cfg : ProfileConfig) (w : World)
    (st : RunState) (v : Video) (t e : String)
    (ht : (get_transcript w st v.id).1 = .text t) (h0 : (t == "") = false)
    (hsum : w.summarize (cfg.prompt v.title v.channel v.published
      (truncateTranscript t)) = .error e) :
    (generate_summary cfg w st v).1 =
      SummaryOutcome.text ("⚠️ Error generating summary: " ++ e) := by
  unfold generate_summary
  rcases hr : get_transcript w st v.id with ⟨r, st1⟩
  rw [hr] at ht
  replace ht : r = .text t := ht
  subst ht
  dsimp only
  simp only [h0, Bool.false_eq_true, if_false]
  rw [hsum]

/-- Configuration with the strict no-transcript skip enabled. -/
def cfgSkip : ProfileConfig :=
  { channels := ["@c"], prompt := fun _ _ _ _ => "P"
    skip_no_transcript := true, videos_per_channel := none }

/-- Oracle where neither captions nor audio produce anything, for
non-restricted reasons. -/
def wNoTranscript : World :=
  { channelId := fun _ => some "CID"
    feedVideos := fun _ => [rawSample]
    captionList := fun _ => .raised "http error 404"
    audioDownload := fun _ => .raised "network timeout"
    transcribe := fun _ => none
    summarize := fun _ => .ok "sum" }

/-- C5 counterexample: with the profile's `skip_no_transcript` flag enabled,
an accepted (public), non-restricted, not-yet-processed candidate whose
transcript is unavailable is marked processed with ZERO Store writes — the
claim's "exactly one Store write per accepted, non-restricted candidate"
fails as stated. -/
theorem claim_one_write_per_candidate_cex :
    isPublic rawSample = true ∧
      (toVideo rawSample).id ∉ (freshState []).processed ∧
      cfgSkip.skip_no_transcript = true ∧
      (get_transcript wNoTranscript (freshState [])
        (toVideo rawSample).id).1 ≠ TResult.membersOnly ∧
      (processVideo cfgSkip wNoTranscript (freshState [])
        (toVideo rawSample)).writes = [] ∧
      (toVideo rawSample).id ∈ (processVideo cfgSkip wNoTranscript
        (freshState []) (toVideo rawSample)).processed := by
  decide

/-- C5 as amended: in a run whose profile does not enable the strict
`skip_no_transcript` flag, every accepted, non-restricted candidate not
already in the processed set yields exactly one Store write; a Summarizer
failure over a resolved transcript yields the explicit error-notice summary
body rather than dropping the item, and the item is marked processed. -/
theorem claim_one_write_per_candidate (cfg : ProfileConfig) (w : World)
    (st : RunState) (v : Video) (hnp : v.id ∉ st.processed)
    (hflag : cfg.skip_no_transcript = false)
    (hm : (get_transcript w st v.id).1 ≠ .membersOnly) :
    (∃ r : DbRecord, (processVideo cfg w st v).writes = st.writes ++ [r] ∧
      r.video_id = v.id ∧
      (∀ t e, (get_transcript w st v.id).1 = .text t → (t == "") = false →
        w.summarize (cfg.prompt v.title v.channel v.published
          (truncateTranscript t)) = .error e →
        r.summary_text = "⚠️ Error generating summary: " ++ e)) ∧
    v.id ∈ (processVideo cfg w st v).processed := by
  refine ⟨?_, processVideo_mem_self cfg w st v⟩
  unfold processVideo
  rw [if_neg hnp, hflag]
  simp only [Bool.false_eq_true, if_false]
  obtain ⟨s, hs⟩ := generate_summary_is_text cfg w st v hm
  have hfr := generate_summary_frame cfg w st v
  unfold processCore
  rcases hgs : generate_summary cfg w st v with ⟨so, st2⟩
  rw [hgs] at hs
  replace hs : so = .text s := hs
  subst hs
  dsimp only
  rw [hgs] at hfr
  refine ⟨mkDbRecord v (st2.lastMethod.getD "youtube_captions") s,
    ?_, rfl, ?_⟩
  · show st2.writes ++ _ = st.writes ++ _
    rw [hfr.2.1]
  · intro t e ht h0 hsum
    have herr := generate_summary_error_case cfg w st v t e ht h0 hsum
    rw [hgs] at herr
    replace herr : SummaryOutcome.text s =
        SummaryOutcome.text ("⚠️ Error generating summary: " ++ e) := herr
    show s = _
    exact SummaryOutcome.text.inj herr

/-- Oracle with captions available but a failing Summarizer. -/
def wSummFail : World :=
  { channelId := fun _ => some "CID"
    feedVideos := fun _ => [rawSample]
    captionList := fun _ => .listing ⟨.ok ["hello", "world"], .err, .err⟩
    audioDownload := fun _ => .raised "boom"
    transcribe := fun _ => none
    summarize := fun _ => .error "quota exceeded" }

/-- Witness for the amended C5: a failing Summarizer still yields one write
whose body is the error notice, and the item is processed. -/
theorem claim_one_write_per_candidate_witness :
    (∃ r : DbRecord,
      (processVideo cfgSample wSummFail (freshState [])
        (toVideo rawSample)).writes = (freshState []).writes ++ [r] ∧
      r.video_id = (toVideo rawSample).id ∧
      r.summary_text = "⚠️ Error generating summary: " ++ "quota exceeded") ∧
    (toVideo rawSample).id ∈ (processVideo cfgSample wSummFail
      (freshState []) (toVideo rawSample)).processed := by
  obtain ⟨⟨r, hw, hid, herr⟩, hmem⟩ :=
    claim_one_write_per_candidate cfgSample wSummFail (freshState [])
      (toVideo rawSample) (by simp [freshState]) rfl (by decide)
  exact ⟨⟨r, hw, hid, herr "hello world" "quota exceeded" (by decide)
    (by decide) rfl⟩, hmem⟩

/-! ## C2 — source type recorded for Unavailable outcomes -/

lemma download_audio_lastMethod (w : World) (st : RunState) (vid : String) :
    (download_audio w st vid).2.lastMethod = st.lastMethod := by
  unfold download_audio
  split
  · rfl
  · split
    · rfl
    · rfl
  · rfl

lemma descriptionBranch_lastMethod (w : World) (st : RunState) (v : Video) :
    (descriptionBranch w st v).2.lastMethod = st.lastMethod := by
  unfold descriptionBranch
  split
  · split
    · rfl
    · rfl
  · rfl

/-- When the audio fallback fails to produce a truthy transcript, the
`_last_transcript_method` attribute is left exactly as it was. -/
lemma audioFallback_unavailable_lastMethod (w : World) (st : RunState)
    (vid : String)
    (hun : (audioFallback w st vid).1 = .noTranscript ∨
      (audioFallback w st vid).1 = .text "") :
    (audioFallback w st vid).2.lastMethod = st.lastMethod := by
  have hdm := download_audio_lastMethod w st vid
  unfold audioFallback at hun ⊢
  rcases hdl : download_audio w st vid with ⟨a, st1⟩
  rw [hdl] at hun
  replace hdm : st1.lastMethod = st.lastMethod := by
    rw [hdl] at hdm
    exact hdm
  cases a with
  | membersOnly =>
    dsimp only at hun
    rcases hun with h | h <;> simp at h
  | failed => exact hdm
  | path p =>
    dsimp only at hun ⊢
    rcases htr : w.transcribe p with _ | t
    · rw [show transcribe_audio_with_gemini w st1 p =
        (none, { st1 with transcribeCalls := st1.transcribeCalls ++ [p] })
        from by unfold transcribe_audio_with_gemini; rw [htr]] at hun ⊢
      exact hdm
    · rw [show transcribe_audio_with_gemini w st1 p =
        (some t, { st1 with transcribeCalls := st1.transcribeCalls ++ [p] })
        from by unfold transcribe_audio_with_gemini; rw [htr]] at hun ⊢
      by_cases h0 : (t == "") = true
      · simp only [h0, if_true] at hun ⊢
        exact hdm
      · simp only [h0, Bool.false_eq_true, if_false] at hun ⊢
        rcases hun with h | h
        · exact absurd h (by simp)
        · replace h : t = "" := TResult.text.inj h
          rw [h] at h0
          simp at h0

/-- When resolution ends Unavailable (falsy transcript, not restricted),
the attribute is either untouched or — in the corner case of captions whose
segments join to the empty string — set to `youtube_captions`; it is never
set to any description-related value. -/
lemma get_transcript_unavailable_lastMethod (w : World) (st : RunState)
    (vid : String)
    (hun : (get_transcript w st vid).1 = .noTranscript ∨
      (get_transcript w st vid).1 = .text "") :
    (get_transcript w st vid).2.lastMethod = st.lastMethod ∨
      (get_transcript w st vid).2.lastMethod = some "youtube_captions" := by
  unfold get_transcript at hun ⊢
  rcases hc : w.captionList vid with msg | l
  · rw [hc] at hun
    dsimp only at hun ⊢
    by_cases hmk : hasRestrictedMarker msg = true
    · rw [if_pos hmk] at hun
      rcases hun with h | h <;> simp at h
    · rw [if_neg hmk] at hun ⊢
      exact Or.inl (audioFallback_unavailable_lastMethod w st vid hun)
  · rw [hc] at hun
    dsimp only at hun ⊢
    rcases hcc : captionCascade l with _ | segs
    · rw [hcc] at hun
      dsimp only at hun ⊢
      exact Or.inl (audioFallback_unavailable_lastMethod w st vid hun)
    · rw [hcc] at hun
      dsimp only at hun ⊢
      by_cases he : segs.isEmpty = true
      · rw [if_pos he] at hun ⊢
        exact Or.inl (audioFallback_unavailable_lastMethod w st vid hun)
      · rw [if_neg he] at hun ⊢
        exact Or.inr rfl

lemma generate_summary_unavailable_lastMethod (cfg : ProfileConfig)
    (w : World) (st : RunState) (v : Video)
    (hun : (get_transcript w st v.id).1 = .noTranscript ∨
      (get_transcript w st v.id).1 = .text "") :
    (generate_summary cfg w st v).2.lastMethod = st.lastMethod ∨
      (generate_summary cfg w st v).2.lastMethod =
        some "youtube_captions" := by
  have hlm := get_transcript_unavailable_lastMethod w st v.id hun
  unfold generate_summary
  rcases hr : get_transcript w st v.id with ⟨r, st1⟩
  rw [hr] at hun hlm
  replace hlm : st1.lastMethod = st.lastMethod ∨
    st1.lastMethod = some "youtube_captions" := hlm
  rcases hun with h | h
  · replace h : r = .noTranscript := h
    subst h
    dsimp only
    rw [descriptionBranch_lastMethod w st1 v]
    exact hlm
  · replace h : r = .text "" := h
    subst h
    dsimp only
    rw [if_pos (by rfl : (("" : String) == "") = true)]
    rw [descriptionBranch_lastMethod w st1 v]
    exact hlm

/-- A public candidate with a description longer than 50 characters. -/
def rawLongDesc : RawVideo :=
  { id := "vdesc", duration := "PT10M", privacyStatus := some "public"
    title := "Big", publishedAt := "2024", channelTitle := "Ch"
    description := some
      "This is a sufficiently long description exceeding fifty characters for sure." }

/-- Oracle with no captions, a generically failing audio download, and a
working Summarizer. -/
def wDesc : World :=
  { channelId := fun _ => some "CID"
    feedVideos := fun _ => [rawLongDesc]
    captionList := fun _ => .listing ⟨.err, .err, .err⟩
    audioDownload := fun _ => .raised "403 forbidden"
    transcribe := fun _ => none
    summarize := fun _ => .ok "Some analysis" }

/-- C2 counterexample: a fresh monitor processes an accepted candidate whose
resolution is Unavailable and whose >50-character description produces a
limited-info summary — yet the record written to the Store carries
`source_type = "youtube_captions"` (the `getattr` default of
`_last_transcript_method`), not any description-only value. -/
theorem claim_unavailable_source_type_cex :
    (get_transcript wDesc (freshState [])
        (toVideo rawLongDesc).id).1 = TResult.noTranscript ∧
      (toVideo rawLongDesc).description.length > 50 ∧
      (processVideo cfgSample wDesc (freshState [])
        (toVideo rawLongDesc)).writes.map DbRecord.source_type =
        ["youtube_captions"] ∧
      (processVideo cfgSample wDesc (freshState [])
        (toVideo rawLongDesc)).writes.map DbRecord.summary_text =
        [limitedInfoMarker ++ "Some analysis"] := by
  decide

/-- C2 as amended: for an accepted, not-yet-processed candidate whose
resolution outcome is Unavailable (run without the strict skip flag),
exactly one record is written and its `source_type` is the monitor's stale
`_last_transcript_method` value or its default `"youtube_captions"` — on a
fresh monitor it is always `"youtube_captions"`; no description-only source
type exists in the code. -/
theorem claim_unavailable_source_type_amended (cfg : ProfileConfig)
    (w : World) (st : RunState) (v : Video) (hnp : v.id ∉ st.processed)
    (hflag : cfg.skip_no_transcript = false)
    (hun : (get_transcript w st v.id).1 = .noTranscript ∨
      (get_transcript w st v.id).1 = .text "") :
    ∃ r : DbRecord, (processVideo cfg w st v).writes = st.writes ++ [r] ∧
      (st.lastMethod = none → r.source_type = "youtube_captions") ∧
      (∀ m, st.lastMethod = some m →
        r.source_type = m ∨ r.source_type = "youtube_captions") := by
  have hm : (get_transcript w st v.id).1 ≠ .membersOnly := by
    rcases hun with h | h <;> rw [h] <;> simp
  unfold processVideo
  rw [if_neg hnp, hflag]
  simp only [Bool.false_eq_true, if_false]
  obtain ⟨s, hs⟩ := generate_summary_is_text cfg w st v hm
  have hfr := generate_summary_frame cfg w st v
  have hlm := generate_summary_unavailable_lastMethod cfg w st v hun
  unfold processCore
  rcases hgs : generate_summary cfg w st v with ⟨so, st2⟩
  rw [hgs] at hs hfr hlm
  replace hs : so = .text s := hs
  subst hs
  dsimp only
  replace hlm : st2.lastMethod = st.lastMethod ∨
    st2.lastMethod = some "youtube_captions" := hlm
  refine ⟨mkDbRecord v (st2.lastMethod.getD "youtube_captions") s, ?_, ?_, ?_⟩
  · show st2.writes ++ _ = st.writes ++ _
    rw [hfr.2.1]
  · intro hnone
    show st2.lastMethod.getD "youtube_captions" = "youtube_captions"
    rcases hlm with h | h
    · rw [h, hnone]; rfl
    · rw [h]; rfl
  · intro m hm'
    show st2.lastMethod.getD "youtube_captions" = m ∨
      st2.lastMethod.getD "youtube_captions" = "youtube_captions"
    rcases hlm with h | h
    · rw [h, hm']; exact Or.inl rfl
    · rw [h]; exact Or.inr rfl

/-- Witness for the amended C2: on a fresh monitor the Unavailable-outcome
record's source type is `youtube_captions`. -/
theorem claim_unavailable_source_type_amended_witness :
    ∃ r : DbRecord, (processVideo cfgSample wDesc (freshState [])
        (toVideo rawLongDesc)).writes = (freshState []).writes ++ [r] ∧
      r.source_type = "youtube_captions" := by
  obtain ⟨r, hw, hnone, _⟩ :=
    claim_unavailable_source_type_amended cfgSample wDesc (freshState [])
      (toVideo rawLongDesc) (by simp [freshState]) rfl (Or.inl (by decide))
  exact ⟨r, hw, hnone rfl⟩

/-! ## C8 — the per-feed target count -/

lemma generate_summary_congr (cfg₁ cfg₂ : ProfileConfig)
    (hp : cfg₁.prompt = cfg₂.prompt) (w : World) :
    ∀ (st : RunState) (v : Video),
      generate_summary cfg₁ w st v = generate_summary cfg₂ w st v := by
  intro st v
  unfold generate_summary
  simp only [hp]

lemma processCore_congr (cfg₁ cfg₂ : ProfileConfig)
    (hp : cfg₁.prompt = cfg₂.prompt) (w : World) :
    ∀ (st : RunState) (v : Video),
      processCore cfg₁ w st v = processCore cfg₂ w st v := by
  intro st v
  unfold processCore
  rw [generate_summary_congr cfg₁ cfg₂ hp w st v]

lemma processVideo_congr (cfg₁ cfg₂ : ProfileConfig)
    (hp : cfg₁.prompt = cfg₂.prompt)
    (hsk : cfg₁.skip_no_transcript = cfg₂.skip_no_transcript) (w : World) :
    ∀ (st : RunState) (v : Video),
      processVideo cfg₁ w st v = processVideo cfg₂ w st v := by
  intro st v
  unfold processVideo
  rw [hsk]
  simp only [processCore_congr cfg₁ cfg₂ hp w]

lemma runChannel_congr (cfg₁ cfg₂ : ProfileConfig)
    (hp : cfg₁.prompt = cfg₂.prompt)
    (hsk : cfg₁.skip_no_transcript = cfg₂.skip_no_transcript) (w : World) :
    ∀ (st : RunState) (handle : String),
      runChannel cfg₁ w st handle = runChannel cfg₂ w st handle := by
  intro st handle
  unfold runChannel
  have hfun : processVideo cfg₁ w = processVideo cfg₂ w :=
    funext fun st => funext fun v => processVideo_congr cfg₁ cfg₂ hp hsk w st v
  rw [hfun]

/-- The pipeline's behaviour depends on the profile configuration only
through `channels`, `prompt` and `skip_no_transcript`. -/
lemma check_channels_congr (cfg₁ cfg₂ : ProfileConfig)
    (hc : cfg₁.channels = cfg₂.channels) (hp : cfg₁.prompt = cfg₂.prompt)
    (hsk : cfg₁.skip_no_transcript = cfg₂.skip_no_transcript) (w : World)
    (st : RunState) : check_channels cfg₁ w st = check_channels cfg₂ w st := by
  unfold check_channels
  have hfun : runChannel cfg₁ w = runChannel cfg₂ w :=
    funext fun st => funext fun handle =>
      runChannel_congr cfg₁ cfg₂ hp hsk w st handle
  rw [hc, hfun]

/-- A profile that configures five videos per feed. -/
def cfgFive : ProfileConfig :=
  { channels := ["@c"], prompt := fun _ _ _ _ => "P"
    skip_no_transcript := false, videos_per_channel := some 5 }

/-- An oracle whose single feed surfaces five public candidates, all with
working captions and a working Summarizer. -/
def wFive : World :=
  { channelId := fun _ => some "CID"
    feedVideos := fun _ =>
      [rawWithStatus "v1" "public", rawWithStatus "v2" "public",
        rawWithStatus "v3" "public", rawWithStatus "v4" "public",
        rawWithStatus "v5" "public"]
    captionList := fun _ => .listing ⟨.ok ["hello"], .err, .err⟩
    audioDownload := fun _ => .raised "x"
    transcribe := fun _ => none
    summarize := fun _ => .ok "sum" }

/-- C8 counterexample: a profile configuring 5 videos per feed, a feed with
5 available public candidates — the run still fetches with target count 3
and writes exactly 3 records. -/
theorem claim_target_count_cex :
    cfgFive.videos_per_channel = some 5 ∧
      (get_latest_videos (wFive.feedVideos "CID") 5).length = 5 ∧
      (check_channels cfgFive wFive (freshState [])).writes.length = 3 ∧
      (check_channels cfgFive wFive (freshState [])).processed.length = 3 := by
  decide

/-- C8 as amended: the pipeline always fetches candidates with the literal
target count 3 for every feed; the profile's videos-per-feed value is never
read — the run is invariant under changing it, and each feed contributes the
first 3 public candidates regardless of the configured value. -/
theorem claim_target_count_always_three (cfg : ProfileConfig) (w : World)
    (st : RunState) :
    (∀ n : Option Nat,
      check_channels { cfg with videos_per_channel := n } w st =
        check_channels cfg w st) ∧
    (∀ handle cid, w.channelId handle = some cid →
      runChannel cfg w st handle =
        ((((w.feedVideos cid).filter fun v => isPublic v).take 3).map
          toVideo).foldl (processVideo cfg w) st) := by
  constructor
  · intro n
    exact check_channels_congr _ cfg rfl rfl rfl w st
  · intro handle cid hcid
    unfold runChannel
    rw [hcid]
    dsimp only
    rw [get_latest_videos_eq]

/-- Witness for the amended C8: changing the configured count from 5 to
none leaves the run unchanged, and the feed is consumed with count 3. -/
theorem claim_target_count_always_three_witness :
    check_channels { cfgFive with videos_per_channel := none } wFive
        (freshState []) = check_channels cfgFive wFive (freshState []) ∧
      runChannel cfgFive wFive (freshState []) "@c" =
        ((((wFive.feedVideos "CID").filter fun v => isPublic v).take 3).map
          toVideo).foldl (processVideo cfgFive wFive) (freshState []) :=
  ⟨(claim_target_count_always_three cfgFive wFive (freshState [])).1 none,
    (claim_target_count_always_three cfgFive wFive (freshState [])).2
      "@c" "CID" rfl⟩

end YTMonitor
